import Mathlib

/-! # go-brewery-stream: record normalisation, map links, upstream fetch, stream session

A shallow embedding of `src/main.go`.

* Go strings are immutable byte sequences: `len s` is the number of bytes and
  `s[i:j]` slices by byte position.  They are embedded as `List UInt8`; a source
  literal `"..."` is embedded as `str "..."`, its UTF-8 encoding.
* `*float64` is embedded as `Option Float64`, `nil` being `none`.
* `(*StreamBrewery, error)` is embedded as `Except GoString StreamBrewery`.
* Library calls whose result depends on the outside world (the HTTP request, the
  JSON decoder and encoder) are parameters of the functions that make them.
-/

namespace BreweryStream

/-! ## Strings -/

/-- A Go string: a sequence of bytes. -/
abbrev GoString := List UInt8

/-- The bytes of a source string literal (Go source text is UTF-8). -/
def str (s : String) : GoString := s.data.flatMap String.utf8EncodeChar

/-- Go slice expression `s[lo:hi]`, for `lo ≤ hi ≤ len s`. -/
def slice (s : GoString) (lo hi : Nat) : GoString := (s.take hi).drop lo

/-- Go slice expression `s[lo:]`, for `lo ≤ len s`. -/
def sliceFrom (s : GoString) (lo : Nat) : GoString := s.drop lo

/-- Go slice expression `s[:hi]`, for `hi ≤ len s`. -/
def sliceTo (s : GoString) (hi : Nat) : GoString := s.take hi

/-- Library `strings.Join`. -/
def stringsJoin : List GoString → GoString → GoString
  | [], _ => []
  | [a], _ => a
  | a :: b :: rest, sep => a ++ sep ++ stringsJoin (b :: rest) sep

/-! ## Library `net/url.QueryEscape` -/

/-- Byte of an ASCII character. -/
def byteOf (c : Char) : UInt8 := c.toNat.toUInt8

/-- Library `net/url.shouldEscape` in mode `encodeQueryComponent`: only ASCII letters,
digits and the marks `-`, `_`, `.`, `~` stay as they are. -/
def shouldEscape (c : UInt8) : Bool :=
  if (byteOf 'a' ≤ c ∧ c ≤ byteOf 'z') ∨ (byteOf 'A' ≤ c ∧ c ≤ byteOf 'Z')
      ∨ (byteOf '0' ≤ c ∧ c ≤ byteOf '9') then false
  else if c = byteOf '-' ∨ c = byteOf '_' ∨ c = byteOf '.' ∨ c = byteOf '~' then false
  else true

/-- The table `upperhex` of `net/url`. -/
def upperhex : GoString := str "0123456789ABCDEF"

/-- One byte of the output of `net/url.escape` in mode `encodeQueryComponent`. -/
def escapeByte (c : UInt8) : GoString :=
  if c = byteOf ' ' then [byteOf '+']
  else if shouldEscape c then
    [byteOf '%', upperhex.getD (c >>> 4).toNat 0, upperhex.getD (c &&& 15).toNat 0]
  else [c]

/-- Library `net/url.QueryEscape`. -/
def queryEscape (s : GoString) : GoString := s.flatMap escapeByte

/-! ## Data model (`main.go`, lines 18-45) -/

/-- An IEEE-754 binary64 value, by its bit pattern. -/
structure Float64 where
  bits : Nat
deriving DecidableEq, Repr

/-- The value `0.0`. -/
def Float64.zero : Float64 := ⟨0⟩

/-- The raw upstream record, `type Brewery struct`. -/
structure Brewery where
  ID : GoString
  Name : GoString
  BreweryType : GoString
  Address1 : GoString
  City : GoString
  StateProvince : GoString
  PostalCode : GoString
  Country : GoString
  Longitude : Option Float64
  Latitude : Option Float64
  Phone : GoString
  WebsiteURL : GoString
deriving DecidableEq, Repr

/-- The outbound record, `type StreamBrewery struct`. The Go field `Type` is `Type_` here
(`Type` is a reserved word). -/
structure StreamBrewery where
  Name : GoString
  Type_ : GoString
  TypeColor : GoString
  Address : GoString
  City : GoString
  State : GoString
  Country : GoString
  Phone : GoString
  Website : GoString
  MapURL : GoString
  HasLocation : Bool
deriving DecidableEq, Repr

/-- The zero value of `Brewery`: every string empty, both coordinates `nil`. -/
def zeroBrewery : Brewery :=
  { ID := [], Name := [], BreweryType := [], Address1 := [], City := [], StateProvince := [],
    PostalCode := [], Country := [], Longitude := none, Latitude := none, Phone := [],
    WebsiteURL := [] }

/-! ## Formatting helpers (`main.go`, lines 197-267) -/

/-- The fixed map-search URL in front of the query, the format string of `buildMapURL`
up to its `%s`. -/
def mapSearchBase : GoString := str "https://www.google.com/maps/search/?api=1&query="

/-- Go `buildMapURL`. The local `parts` grows by the five guarded `append`s in turn. -/
def buildMapURL (name address city state country : GoString) : GoString :=
  let parts : List GoString := []
  let parts := if name ≠ [] then parts ++ [name] else parts
  let parts := if address ≠ [] then parts ++ [address] else parts
  let parts := if city ≠ [] then parts ++ [city] else parts
  let parts := if state ≠ [] ∧ state ≠ str "N/A" then parts ++ [state] else parts
  let parts := if country ≠ [] ∧ country ≠ str "Unknown" then parts ++ [country] else parts
  if parts.length = 0 then []
  else
    let query := queryEscape (stringsJoin parts (str ", "))
    mapSearchBase ++ query

/-- The map literal `types` of `formatBreweryType`. -/
def typesTable : List (GoString × GoString) :=
  [ (str "micro", str "Micro Brewery"),
    (str "nano", str "Nano Brewery"),
    (str "regional", str "Regional Brewery"),
    (str "brewpub", str "Brewpub"),
    (str "large", str "Large Brewery"),
    (str "planning", str "Planning"),
    (str "bar", str "Bar"),
    (str "contract", str "Contract Brewing"),
    (str "proprietor", str "Proprietor"),
    (str "closed", str "Closed") ]

/-- Go `formatBreweryType`: the entry of `types` at `t` when there is one, else `t`. -/
def formatBreweryType (t : GoString) : GoString :=
  (typesTable.lookup t).getD t

/-- The map literal `colors` of `getTypeColor`. -/
def colorsTable : List (GoString × GoString) :=
  [ (str "micro", str "bg-amber-500"),
    (str "nano", str "bg-yellow-500"),
    (str "regional", str "bg-orange-500"),
    (str "brewpub", str "bg-green-500"),
    (str "large", str "bg-blue-500"),
    (str "planning", str "bg-purple-500"),
    (str "bar", str "bg-pink-500"),
    (str "contract", str "bg-indigo-500"),
    (str "proprietor", str "bg-teal-500"),
    (str "closed", str "bg-gray-500") ]

/-- Go `getTypeColor`: the entry of `colors` at `t` when there is one, else the default. -/
def getTypeColor (t : GoString) : GoString :=
  (colorsTable.lookup t).getD (str "bg-gray-500")

/-- Go `formatPhone`. `fmt.Sprintf("(%s) %s-%s", a, b, c)` concatenates. -/
def formatPhone (phone : GoString) : GoString :=
  if phone.length = 10 then
    str "(" ++ sliceTo phone 3 ++ str ") " ++ slice phone 3 6 ++ str "-" ++ sliceFrom phone 6
  else phone

/-! ## The normaliser (`main.go`, lines 146-195) -/

/-- Go `transformBrewery`. -/
def transformBrewery (b : Brewery) : StreamBrewery :=
  let address := b.Address1
  let address := if address = [] then str "Address not available" else address
  let phone := b.Phone
  let phone := if phone = [] then str "Not available" else formatPhone phone
  let website := b.WebsiteURL
  let website := if website = [] then str "" else website
  let state := b.StateProvince
  let state := if state = [] then str "N/A" else state
  let city := b.City
  let city := if city = [] then str "Unknown" else city
  let country := b.Country
  let country := if country = [] then str "Unknown" else country
  let hasLocation := b.Latitude.isSome && b.Longitude.isSome
  let mapURL := buildMapURL b.Name b.Address1 city state country
  { Name := b.Name,
    Type_ := formatBreweryType b.BreweryType,
    TypeColor := getTypeColor b.BreweryType,
    Address := address,
    City := city,
    State := state,
    Country := country,
    Phone := phone,
    Website := website,
    MapURL := mapURL,
    HasLocation := hasLocation }

/-! ## The upstream fetcher (`main.go`, lines 124-144) -/

/-- A Go `error`, by its message. -/
abbrev GoError := GoString

/-- What `client.Get` hands back on success: the status line and the body. -/
structure Response where
  StatusCode : Nat
  Body : GoString
deriving DecidableEq, Repr

/-- The two library codecs the program calls: `json.NewDecoder(body).Decode(&breweries)`
and `json.Marshal(brewery)`. -/
structure Codec where
  decode : GoString → Except GoError (List Brewery)
  marshal : StreamBrewery → Except GoError GoString

/-- Go `fetchRandomBrewery`; `got` is the outcome of
`client.Get("https://api.openbrewerydb.org/v1/breweries/random?size=1")`. -/
def fetchRandomBrewery (lib : Codec) (got : Except GoError Response) :
    Except GoError StreamBrewery :=
  match got with
  | .error err => .error err
  | .ok resp =>
    match lib.decode resp.Body with
    | .error err => .error err
    | .ok breweries =>
      if h : breweries.length = 0 then .error (str "no brewery returned")
      else
        let b := breweries.get ⟨0, Nat.pos_of_ne_zero h⟩
        .ok (transformBrewery b)

/-! ## The stream session (`main.go`, lines 79-122) -/

/-- What the handler does to the client connection, in order. `httpError msg code` is
the body part of the library call `http.Error(w, msg, code)`: the status `code` and the
line `msg`; what that call does to the header is `httpErrorHeader`. -/
inductive ClientOp where
  | write (data : GoString)
  | flush
  | httpError (msg : GoString) (code : Nat)
deriving DecidableEq, Repr

/-- State of one `handleStream` call. `client` is what has been done to the connection,
`log` holds the messages given to `log.Printf`, `fetches` counts the calls of
`fetchRandomBrewery` made so far, `running` is false once the handler has returned. -/
structure Session where
  header : List (GoString × GoString)
  client : List ClientOp
  log : List GoString
  fetches : Nat
  running : Bool
deriving DecidableEq, Repr

/-- Go `sendBrewery`. The outcome of the request made by the `k`-th call of
`fetchRandomBrewery` in this session is `upstream k`. -/
def sendBrewery (lib : Codec) (upstream : Nat → Except GoError Response) (s : Session) :
    Session :=
  match fetchRandomBrewery lib (upstream s.fetches) with
  | .error err =>
    { s with fetches := s.fetches + 1, log := s.log ++ [str "Error fetching brewery: " ++ err] }
  | .ok brewery =>
    match lib.marshal brewery with
    | .error err =>
      { s with fetches := s.fetches + 1,
               log := s.log ++ [str "Error marshaling brewery: " ++ err] }
    | .ok data =>
      { s with fetches := s.fetches + 1,
               client := s.client ++ [.write (str "data: " ++ data ++ str "\n\n"), .flush] }

/-- The case a `select` of the session loop takes: the request context is done, or the
ticker fired. -/
inductive SelectEvent where
  | done
  | tick
deriving DecidableEq, Repr

/-- The `for { select { ... } }` loop of `handleStream`, run over the cases its selects
take. When the list runs out the handler is blocked in `select`. -/
def selectLoop (lib : Codec) (upstream : Nat → Except GoError Response) (s : Session) :
    List SelectEvent → Session
  | [] => s
  | .done :: _ => { s with running := false }
  | .tick :: rest => selectLoop lib upstream (sendBrewery lib upstream s) rest

/-- Library `Header.Set`: the value at `key` is replaced, or the pair is added. -/
def headerSet : List (GoString × GoString) → GoString → GoString → List (GoString × GoString)
  | [], key, value => [(key, value)]
  | (k, v) :: rest, key, value =>
    if k = key then (key, value) :: rest else (k, v) :: headerSet rest key value

/-- What the library call `http.Error` does to the header before it writes the status
and the message: it sets `Content-Type` to plain text and `X-Content-Type-Options` to
`nosniff`, and leaves the other fields the handler has set. -/
def httpErrorHeader (h : List (GoString × GoString)) : List (GoString × GoString) :=
  headerSet (headerSet h (str "Content-Type") (str "text/plain; charset=utf-8"))
    (str "X-Content-Type-Options") (str "nosniff")

/-- The five `w.Header().Set` calls of `handleStream`. -/
def sseHeader : List (GoString × GoString) :=
  [ (str "Content-Type", str "text/event-stream"),
    (str "Cache-Control", str "no-cache"),
    (str "Connection", str "keep-alive"),
    (str "Access-Control-Allow-Origin", str "*"),
    (str "X-Accel-Buffering", str "no") ]

/-- The session when `handleStream` has set its headers and nothing else has happened. -/
def openSession : Session :=
  { header := sseHeader, client := [], log := [], fetches := 0, running := true }

/-- Go `handleStream`; `flusherOk` is the `ok` of `w.(http.Flusher)`. -/
def handleStream (lib : Codec) (upstream : Nat → Except GoError Response) (flusherOk : Bool)
    (events : List SelectEvent) : Session :=
  let s := openSession
  if !flusherOk then
    { s with header := httpErrorHeader s.header,
             client := [.httpError (str "SSE not supported") 500], running := false }
  else
    let s := sendBrewery lib upstream s
    selectLoop lib upstream s events

/-- The cycle whose request outcome is `got` sends nothing: the fetch fails, or the
record does not serialise. -/
def cycleFails (lib : Codec) (got : Except GoError Response) : Bool :=
  match fetchRandomBrewery lib got with
  | .error _ => true
  | .ok brewery =>
    match lib.marshal brewery with
    | .error _ => true
    | .ok _ => false

/-! ## The session step by step (`main.go`, lines 92-104) -/

/-- One thing that happens during a `handleStream` call. `cancel` (the request context is
cancelled, as when the client disconnects) and `tickFires` (the ticker sends on
`ticker.C`) are done by the environment at any moment; `fetchReturns` is the end of the
upstream request of the `sendBrewery` call in progress; `selectDone` and `selectTick` are
the case a `select` of the loop takes. -/
inductive Step where
  | cancel
  | tickFires
  | fetchReturns
  | selectDone
  | selectTick
deriving DecidableEq, Repr

/-- A `handleStream` call in progress. `fetching` says that a `sendBrewery` call is waiting
for its upstream request, otherwise the handler is at the `select` (or has returned);
`cancelled` says that `r.Context().Done()` is closed; `tickPending` says that a tick is
waiting in the one-slot buffer of `ticker.C`. -/
structure Handler where
  session : Session
  fetching : Bool
  cancelled : Bool
  tickPending : Bool
deriving DecidableEq, Repr

/-- One step of a `handleStream` call, `none` when the step cannot happen in this state.
`sendBrewery` is given neither the request nor its context, so the end of its request
runs the rest of `sendBrewery` whatever `cancelled` is. A `select` takes a case whose
channel is ready, and either case when both are; a `select` that was blocked takes the
case of the channel that became ready first, which is one of the runs allowed here. -/
def stepHandler (lib : Codec) (upstream : Nat → Except GoError Response) (h : Handler) :
    Step → Option Handler
  | .cancel => some { h with cancelled := true }
  | .tickFires => some { h with tickPending := true }
  | .fetchReturns =>
    if h.fetching then
      some { h with session := sendBrewery lib upstream h.session, fetching := false }
    else none
  | .selectDone =>
    if h.session.running && !h.fetching && h.cancelled then
      some { h with session := { h.session with running := false } }
    else none
  | .selectTick =>
    if h.session.running && !h.fetching && h.tickPending then
      some { h with tickPending := false, fetching := true }
    else none

/-- A sequence of steps, `none` when one of them cannot happen. -/
def runHandler (lib : Codec) (upstream : Nat → Except GoError Response) (h : Handler) :
    List Step → Option Handler
  | [] => some h
  | e :: rest => (stepHandler lib upstream h e).bind (fun h1 => runHandler lib upstream h1 rest)

/-- The handler on entry, after the headers and the flusher test of `handleStream`: with
a flusher the first `sendBrewery` call is in progress, without one the handler has
answered with the error and returned. -/
def enterHandler (flusherOk : Bool) : Handler :=
  if !flusherOk then
    { session := { openSession with header := httpErrorHeader openSession.header,
                                    client := [.httpError (str "SSE not supported") 500],
                                    running := false },
      fetching := false, cancelled := false, tickPending := false }
  else
    { session := openSession, fetching := true, cancelled := false, tickPending := false }

/-- The number of fetch attempts made so far: the `sendBrewery` calls that have ended and
the one in progress. -/
def attempts (h : Handler) : Nat := h.session.fetches + (if h.fetching then 1 else 0)

/-- The session as it is when the `sendBrewery` call in progress, if any, has ended. -/
def settled (lib : Codec) (upstream : Nat → Except GoError Response) (h : Handler) : Session :=
  if h.fetching then sendBrewery lib upstream h.session else h.session

/-- The cycles of a sequence of steps come one after another: a `select` takes the tick
case, which starts a fetch, only when no fetch is in progress, and a fetch ends only when
one is in progress. `fetching` says whether one is in progress at the start. -/
def cyclesInTurn : Bool → List Step → Bool
  | _, [] => true
  | fetching, .fetchReturns :: rest => fetching && cyclesInTurn false rest
  | fetching, .selectTick :: rest => !fetching && cyclesInTurn true rest
  | fetching, _ :: rest => cyclesInTurn fetching rest

/-- The cases taken by the selects of a sequence of steps. -/
def selectsOf : List Step → List SelectEvent
  | [] => []
  | .selectDone :: rest => .done :: selectsOf rest
  | .selectTick :: rest => .tick :: selectsOf rest
  | _ :: rest => selectsOf rest

/-! ## The specification's wording, for comparison with the code -/

/-- Specification wording of the phone rule, read over the characters of the phone
number: ten characters are regrouped as characters 1-3, 4-6 and 7-10. -/
def phoneByCharacters (s : String) : String :=
  if s.length = 0 then "Not available"
  else if s.length = 10 then
    String.mk (['('] ++ s.data.take 3 ++ [')', ' '] ++ (s.data.drop 3).take 3 ++ ['-']
      ++ s.data.drop 6)
  else s

/-- Every character of `s` is ASCII, so that its characters and its bytes coincide. -/
def isASCII (s : String) : Bool := s.data.all (fun c => c.val ≤ 0x7f)

/-- Specification wording of the map-link parts: `[name, address1, city, state, country]`
in that order, without state when it is `N/A`, without country when it is `Unknown`,
keeping only the non-empty ones. -/
def mapParts (name address city state country : GoString) : List GoString :=
  ([name, address, city] ++ (if state = str "N/A" then [] else [state])
    ++ (if country = str "Unknown" then [] else [country])).filter (fun p => p ≠ [])

/-- Specification wording of the ticks a session observes before cancellation: the tick
cases its selects take before the context is cancelled. -/
def ticksBeforeCancel (script : List Step) : Nat :=
  (script.takeWhile (fun e => e ≠ .cancel)).count .selectTick

/-- Specification wording of the intervals that elapse before the client disconnects: the
ticks the ticker fires before the context is cancelled. -/
def firedBeforeCancel (script : List Step) : Nat :=
  (script.takeWhile (fun e => e ≠ .cancel)).count .tickFires

/-- Specification wording of a successful HTTP status: 2xx. -/
def is2xx (code : Nat) : Bool := 200 ≤ code && code < 300

/-! ## Concrete inputs -/

/-- The JSON that `json.Marshal` gives for `transformBrewery zeroBrewery`. -/
def zeroRecordJSON : GoString :=
  str ("\x7b\"name\":\"\",\"type\":\"\",\"typeColor\":\"bg-gray-500\","
    ++ "\"address\":\"Address not available\",\"city\":\"Unknown\",\"state\":\"N/A\","
    ++ "\"country\":\"Unknown\",\"phone\":\"Not available\",\"website\":\"\","
    ++ "\"mapUrl\":\"https://www.google.com/maps/search/?api=1\\u0026query=Unknown\","
    ++ "\"hasLocation\":false\x7d")

/-- A finite part of the behaviour of `encoding/json`: the bodies `[]` and `[{}]` decode
to the empty list and to one zero record, the body `oops` is not JSON, and the transform
of the zero record serialises to `zeroRecordJSON`. Inputs outside this part are reported
as errors. -/
def sampleCodec : Codec :=
  { decode := fun body =>
      if body = str "[]" then .ok []
      else if body = str "[\x7b\x7d]" then .ok [zeroBrewery]
      else .error (str "invalid character"),
    marshal := fun rec =>
      if rec = transformBrewery zeroBrewery then .ok zeroRecordJSON
      else .error (str "unsupported") }

/-- An upstream that times out on the first request, answers 503 with a body that is
not JSON on the second, answers 200 with an empty list on the third, and answers 200 with
one record from then on. -/
def sampleUpstream (k : Nat) : Except GoError Response :=
  if k = 0 then .error (str "context deadline exceeded")
  else if k = 1 then .ok ⟨503, str "oops"⟩
  else if k = 2 then .ok ⟨200, str "[]"⟩
  else .ok ⟨200, str "[\x7b\x7d]"⟩

/-- An upstream that answers every request with status 200 and one record. -/
def steadyUpstream (_ : Nat) : Except GoError Response := .ok ⟨200, str "[\x7b\x7d]"⟩

/-- The one event of the zero record: what `sendBrewery` writes for it. -/
def zeroRecordEvent : GoString := str "data: " ++ zeroRecordJSON ++ str "\n\n"

/-- The handler that has sent `n` events of the zero record, has seen the context
cancelled and has returned. -/
def returnedAfter (n : Nat) (tickPending : Bool) : Handler :=
  { session := { openSession with
                   client := (List.replicate n [.write zeroRecordEvent, .flush]).flatten,
                   fetches := n, running := false },
    fetching := false, cancelled := true, tickPending := tickPending }

/-- The handler that has sent `n` events of the zero record and is blocked in `select`:
the context is not cancelled and no tick is pending. -/
def waitingAfter (n : Nat) : Handler :=
  { session := { openSession with
                   client := (List.replicate n [.write zeroRecordEvent, .flush]).flatten,
                   fetches := n },
    fetching := false, cancelled := false, tickPending := false }

/-- The header of the answer of `handleStream` on a transport without a flusher. -/
def unsupportedHeader : List (GoString × GoString) :=
  [ (str "Content-Type", str "text/plain; charset=utf-8"),
    (str "Cache-Control", str "no-cache"),
    (str "Connection", str "keep-alive"),
    (str "Access-Control-Allow-Origin", str "*"),
    (str "X-Accel-Buffering", str "no"),
    (str "X-Content-Type-Options", str "nosniff") ]

/-! ## Helper lemmas -/

theorem utf8EncodeChar_ascii (c : Char) (h : c.val ≤ 0x7f) :
    String.utf8EncodeChar c = [c.val.toUInt8] := by
  simp [String.utf8EncodeChar, h]

theorem str_mk_ascii (l : List Char) (h : ∀ c ∈ l, c.val ≤ 0x7f) :
    str (String.mk l) = l.map (fun c => c.val.toUInt8) := by
  induction l with
  | nil => rfl
  | cons a rest ih =>
    have ha := utf8EncodeChar_ascii a (h a (List.mem_cons_self a rest))
    have hrest := ih (fun c hc => h c (List.mem_cons_of_mem a hc))
    simp only [str, List.flatMap_cons, List.map_cons, ha] at hrest ⊢
    rw [hrest]
    rfl

theorem lookup_cons_eq {β : Type} (t k : GoString) (v : β) (l : List (GoString × β)) :
    List.lookup t ((k, v) :: l) = if t = k then some v else List.lookup t l := by
  by_cases h : t = k
  · simp [List.lookup, h]
  · simp [List.lookup, h, beq_false_of_ne h]

theorem lookupD_cons {β : Type} (t k : GoString) (v d : β) (l : List (GoString × β)) :
    (List.lookup t ((k, v) :: l)).getD d = if t = k then v else (List.lookup t l).getD d := by
  rw [lookup_cons_eq]
  by_cases h : t = k
  · rw [if_pos h, if_pos h]; rfl
  · rw [if_neg h, if_neg h]

/-- A ten-entry map literal, read at `t` with default `d`, is the chain of ten tests. -/
theorem lookup_table_ten {β : Type} (t k1 k2 k3 k4 k5 k6 k7 k8 k9 k10 : GoString)
    (v1 v2 v3 v4 v5 v6 v7 v8 v9 v10 d : β) :
    (List.lookup t [(k1, v1), (k2, v2), (k3, v3), (k4, v4), (k5, v5), (k6, v6), (k7, v7),
        (k8, v8), (k9, v9), (k10, v10)]).getD d =
      (if t = k1 then v1 else if t = k2 then v2 else if t = k3 then v3 else if t = k4 then v4
       else if t = k5 then v5 else if t = k6 then v6 else if t = k7 then v7
       else if t = k8 then v8 else if t = k9 then v9 else if t = k10 then v10 else d) := by
  rw [lookupD_cons, lookupD_cons, lookupD_cons, lookupD_cons, lookupD_cons, lookupD_cons,
    lookupD_cons, lookupD_cons, lookupD_cons, lookupD_cons]
  rfl

/-- With a city on the raw record, the map link is the one built from the raw fields. -/
theorem mapURL_raw_of_city (b : Brewery) (h : b.City ≠ []) :
    (transformBrewery b).MapURL
      = buildMapURL b.Name b.Address1 b.City b.StateProvince b.Country := by
  have hna : str "N/A" ≠ [] := by decide
  have hun : str "Unknown" ≠ [] := by decide
  simp only [transformBrewery, buildMapURL, if_neg h]
  by_cases h4 : b.StateProvince = [] <;> by_cases h5 : b.Country = [] <;> simp [h4, h5, hna, hun]

/-- The fetcher on a response: decode the body, fail on a decode error or an empty list,
else transform the first record. -/
theorem fetch_ok_resp (lib : Codec) (resp : Response) :
    fetchRandomBrewery lib (.ok resp) =
      (match lib.decode resp.Body with
       | .error err => .error err
       | .ok [] => .error (str "no brewery returned")
       | .ok (b :: _) => .ok (transformBrewery b)) := by
  simp only [fetchRandomBrewery]
  cases lib.decode resp.Body with
  | error err => rfl
  | ok breweries =>
    cases breweries with
    | nil => rfl
    | cons b rest => rfl

/-- A failing cycle leaves the client untouched and the session running. -/
theorem sendBrewery_of_fails (lib : Codec) (upstream : Nat → Except GoError Response)
    (s : Session) (h : cycleFails lib (upstream s.fetches) = true) :
    (sendBrewery lib upstream s).client = s.client
    ∧ (sendBrewery lib upstream s).running = s.running
    ∧ (sendBrewery lib upstream s).fetches = s.fetches + 1 := by
  cases hf : fetchRandomBrewery lib (upstream s.fetches) with
  | error err =>
    simp only [sendBrewery, hf, and_self]
  | ok brewery =>
    cases hm : lib.marshal brewery with
    | error err =>
      simp only [sendBrewery, hf, hm, and_self]
    | ok data =>
      simp only [cycleFails, hf, hm] at h
      exact absurd h (by decide)

/-- A successful cycle appends one event and one flush. -/
theorem sendBrewery_of_ok (lib : Codec) (upstream : Nat → Except GoError Response)
    (s : Session) (sb : StreamBrewery) (data : GoString)
    (hf : fetchRandomBrewery lib (upstream s.fetches) = .ok sb) (hm : lib.marshal sb = .ok data) :
    sendBrewery lib upstream s =
      { s with fetches := s.fetches + 1,
               client := s.client ++ [.write (str "data: " ++ data ++ str "\n\n"), .flush] } := by
  simp only [sendBrewery, hf, hm]

theorem selectLoop_ticks_succ (lib : Codec) (upstream : Nat → Except GoError Response)
    (n : Nat) (s : Session) :
    selectLoop lib upstream s (List.replicate (n + 1) .tick)
      = sendBrewery lib upstream (selectLoop lib upstream s (List.replicate n .tick)) := by
  induction n generalizing s with
  | zero => rfl
  | succ k ih =>
    rw [List.replicate_succ, selectLoop, ih (sendBrewery lib upstream s)]
    rfl

theorem handleStream_no_tick (lib : Codec) (upstream : Nat → Except GoError Response) :
    handleStream lib upstream true [] = sendBrewery lib upstream openSession := by
  simp only [handleStream, Bool.not_true, Bool.false_eq_true, if_false, selectLoop]

/-- One more tick is one more `sendBrewery`. -/
theorem handleStream_ticks_succ (lib : Codec) (upstream : Nat → Except GoError Response)
    (n : Nat) :
    handleStream lib upstream true (List.replicate (n + 1) .tick)
      = sendBrewery lib upstream (handleStream lib upstream true (List.replicate n .tick)) := by
  simp only [handleStream, Bool.not_true, Bool.false_eq_true, if_false]
  exact selectLoop_ticks_succ lib upstream n _

/-- While every cycle so far has failed, nothing has reached the client. -/
theorem handleStream_all_failed (lib : Codec) (upstream : Nat → Except GoError Response)
    (k : Nat) (hfail : ∀ i, i ≤ k → cycleFails lib (upstream i) = true) :
    (handleStream lib upstream true (List.replicate k .tick)).client = []
    ∧ (handleStream lib upstream true (List.replicate k .tick)).running = true
    ∧ (handleStream lib upstream true (List.replicate k .tick)).fetches = k + 1 := by
  induction k with
  | zero =>
    have h0 := sendBrewery_of_fails lib upstream openSession (hfail 0 (Nat.le_refl 0))
    rw [List.replicate_zero, handleStream_no_tick]
    exact h0
  | succ n ih =>
    obtain ⟨hc, hr, hn⟩ := ih (fun i hi => hfail i (Nat.le_succ_of_le hi))
    have hcyc : cycleFails lib
        (upstream (handleStream lib upstream true (List.replicate n .tick)).fetches) = true := by
      rw [hn]; exact hfail (n + 1) (Nat.le_refl _)
    obtain ⟨h1, h2, h3⟩ := sendBrewery_of_fails lib upstream _ hcyc
    rw [handleStream_ticks_succ]
    exact ⟨h1.trans hc, h2.trans hr, by rw [h3, hn]⟩

/-- On an all-ASCII phone number, where characters and bytes coincide, the code does
what the specification's wording over characters says. -/
theorem phone_ascii (s : String) (h : isASCII s = true) :
    (transformBrewery { zeroBrewery with Phone := str s }).Phone = str (phoneByCharacters s) := by
  obtain ⟨l⟩ := s
  have hl : ∀ c ∈ l, c.val ≤ 0x7f := by
    simpa [isASCII, List.all_eq_true] using h
  have hstr := str_mk_ascii l hl
  have hlen : (str (String.mk l)).length = l.length := by rw [hstr, List.length_map]
  simp only [transformBrewery, phoneByCharacters, String.length]
  by_cases h0 : l.length = 0
  · have : l = [] := List.length_eq_zero.mp h0
    subst this
    rfl
  · have hne : str (String.mk l) ≠ [] := by
      intro hnil
      rw [hnil] at hlen
      exact h0 hlen.symm
    rw [if_neg hne, if_neg h0]
    by_cases h10 : l.length = 10
    · have hall : ∀ c ∈ ['('] ++ l.take 3 ++ [')', ' '] ++ (l.drop 3).take 3 ++ ['-'] ++ l.drop 6,
          c.val ≤ 0x7f := by
        intro c hc
        simp only [List.mem_append, List.mem_cons, List.mem_singleton, List.not_mem_nil,
          or_false] at hc
        rcases hc with ((((hc | hc) | hc | hc) | hc) | hc) | hc
        · subst hc; decide
        · exact hl c (List.mem_of_mem_take hc)
        · subst hc; decide
        · subst hc; decide
        · exact hl c (List.mem_of_mem_drop (List.mem_of_mem_take hc))
        · subst hc; decide
        · exact hl c (List.mem_of_mem_drop hc)
      rw [if_pos h10, str_mk_ascii _ hall, formatPhone, if_pos (hlen.trans h10), hstr]
      simp only [sliceTo, slice, sliceFrom, List.map_append, List.map_take, List.map_drop,
        List.drop_take]
      rfl
    · rw [if_neg h10, formatPhone, if_neg (by rw [hlen]; exact h10)]

/-! ## The normaliser: claims C1 to C7 -/

/-- C1, as stated, fails: the phone number `555123456é` has exactly ten characters, for
which the claim's wording gives `(555) 123-456é`, yet `transformBrewery` returns it
unchanged, because Go's `len` counts its eleven bytes. -/
theorem phone_ten_characters_left_unchanged :
    ("555123456é").length = 10
    ∧ phoneByCharacters "555123456é" = "(555) 123-456é"
    ∧ (transformBrewery { zeroBrewery with Phone := str "555123456é" }).Phone
        = str "555123456é"
    ∧ (transformBrewery { zeroBrewery with Phone := str "555123456é" }).Phone
        ≠ str (phoneByCharacters "555123456é") := by
  decide

/-- C1, amended: for every raw record `b`, the `Phone` of `transformBrewery b` is
`Not available` if `b.Phone` is empty; it is `(` + bytes 1-3 + `) ` + bytes 4-6 + `-` +
bytes 7-10 if `b.Phone` is exactly 10 bytes long, digits or not; and it is `b.Phone`
unchanged for every other length in bytes. `5551234567` gives `(555) 123-4567` and
`12345` gives `12345`. -/
theorem transformBrewery_phone_by_bytes (b : Brewery) :
    (transformBrewery b).Phone =
      (if b.Phone.length = 0 then str "Not available"
       else if b.Phone.length = 10 then
         str "(" ++ b.Phone.take 3 ++ str ") " ++ (b.Phone.drop 3).take 3 ++ str "-"
           ++ b.Phone.drop 6
       else b.Phone)
    ∧ (transformBrewery { b with Phone := str "5551234567" }).Phone = str "(555) 123-4567"
    ∧ (transformBrewery { b with Phone := str "12345" }).Phone = str "12345" := by
  refine ⟨?_, by rfl, by rfl⟩
  simp only [transformBrewery, formatPhone, slice, sliceTo, sliceFrom]
  by_cases h : b.Phone = []
  · simp [h]
  · have h2 : b.Phone.length ≠ 0 := by simpa using h
    simp only [h, h2, if_false]
    split_ifs <;> simp [List.drop_take]

/-- C2: `buildMapURL` returns the empty string when the list of parts is empty, and
otherwise the map-search URL followed by the query-escaping of the parts joined with
`, `, the parts being `[name, address1, city, state, country]` in that order without the
empty ones, without state `N/A` and without country `Unknown`. For `Acme`, `1 Main St`,
`Springfield`, `N/A`, `Unknown` it encodes exactly `Acme, 1 Main St, Springfield`, and
for all-empty inputs it returns the empty string. -/
theorem buildMapURL_parts (name address city state country : GoString) :
    buildMapURL name address city state country =
      (if mapParts name address city state country = [] then []
       else mapSearchBase
         ++ queryEscape (stringsJoin (mapParts name address city state country) (str ", ")))
    ∧ buildMapURL (str "Acme") (str "1 Main St") (str "Springfield") (str "N/A") (str "Unknown")
        = mapSearchBase ++ queryEscape (str "Acme, 1 Main St, Springfield")
    ∧ buildMapURL (str "Acme") (str "1 Main St") (str "Springfield") (str "N/A") (str "Unknown")
        = str "https://www.google.com/maps/search/?api=1&query=Acme%2C+1+Main+St%2C+Springfield"
    ∧ buildMapURL [] [] [] [] [] = [] := by
  refine ⟨?_, by decide, by decide, by decide⟩
  have hna : str "N/A" ≠ [] := by decide
  have hun : str "Unknown" ≠ [] := by decide
  simp only [buildMapURL, mapParts]
  by_cases h1 : name = [] <;> by_cases h2 : address = [] <;> by_cases h3 : city = []
    <;> by_cases h4 : state = [] <;> by_cases h5 : country = []
    <;> by_cases h6 : state = str "N/A" <;> by_cases h7 : country = str "Unknown"
    <;> simp_all [List.filter]

/-- C3, the code at the failing input: for the raw record whose only non-empty field is
the name `Acme`, the map link built from the raw fields has the query `Acme`, but the
`MapURL` of `transformBrewery` has the query `Acme, Unknown`: the city sentinel that
normalisation introduced is in the map query. -/
theorem transformBrewery_mapURL_city_sentinel :
    (transformBrewery { zeroBrewery with Name := str "Acme" }).MapURL
      = mapSearchBase ++ queryEscape (str "Acme, Unknown")
    ∧ buildMapURL (str "Acme") [] [] [] [] = mapSearchBase ++ queryEscape (str "Acme")
    ∧ (transformBrewery { zeroBrewery with Name := str "Acme" }).MapURL
      ≠ buildMapURL (str "Acme") [] [] [] [] := by
  decide

/-- C4: `transformBrewery b` has `Address = b.Address1` if non-empty and
`Address not available` otherwise, `City = b.City` if non-empty and `Unknown` otherwise,
`State = b.StateProvince` if non-empty and `N/A` otherwise, `Country = b.Country` if
non-empty and `Unknown` otherwise; none of the four is ever the empty string. -/
theorem transformBrewery_defaults (b : Brewery) :
    (transformBrewery b).Address
        = (if b.Address1 = [] then str "Address not available" else b.Address1)
    ∧ (transformBrewery b).City = (if b.City = [] then str "Unknown" else b.City)
    ∧ (transformBrewery b).State = (if b.StateProvince = [] then str "N/A" else b.StateProvince)
    ∧ (transformBrewery b).Country = (if b.Country = [] then str "Unknown" else b.Country)
    ∧ (transformBrewery b).Address ≠ [] ∧ (transformBrewery b).City ≠ []
    ∧ (transformBrewery b).State ≠ [] ∧ (transformBrewery b).Country ≠ [] := by
  have hna : str "N/A" ≠ [] := by decide
  have hun : str "Unknown" ≠ [] := by decide
  have had : str "Address not available" ≠ [] := by decide
  refine ⟨?_, ?_, ?_, ?_, ?_, ?_, ?_, ?_⟩ <;> simp only [transformBrewery]
    <;> split_ifs <;> assumption

/-- C5: `formatBreweryType t` is the table label when `t` is one of the ten known codes
and is `t` itself for every other code, the empty string and `Micro` included; it is the
`Type` field of the output of `transformBrewery`. -/
theorem formatBreweryType_table (t : GoString) (b : Brewery) :
    formatBreweryType t =
      (if t = str "micro" then str "Micro Brewery"
       else if t = str "nano" then str "Nano Brewery"
       else if t = str "regional" then str "Regional Brewery"
       else if t = str "brewpub" then str "Brewpub"
       else if t = str "large" then str "Large Brewery"
       else if t = str "planning" then str "Planning"
       else if t = str "bar" then str "Bar"
       else if t = str "contract" then str "Contract Brewing"
       else if t = str "proprietor" then str "Proprietor"
       else if t = str "closed" then str "Closed"
       else t)
    ∧ formatBreweryType [] = []
    ∧ formatBreweryType (str "Micro") = str "Micro"
    ∧ (transformBrewery b).Type_ = formatBreweryType b.BreweryType := by
  refine ⟨?_, by decide, by decide, by simp only [transformBrewery]⟩
  unfold formatBreweryType typesTable
  exact lookup_table_ten t _ _ _ _ _ _ _ _ _ _ _ _ _ _ _ _ _ _ _ _ t

/-- C6: `getTypeColor t` is the table entry when `t` is one of the ten known codes and
is the default `bg-gray-500` for every code outside the table; on a record with category
`unknown_code`, `transformBrewery` yields `Type` `unknown_code` and `TypeColor`
`bg-gray-500`. -/
theorem getTypeColor_table (t : GoString) (b : Brewery) :
    getTypeColor t =
      (if t = str "micro" then str "bg-amber-500"
       else if t = str "nano" then str "bg-yellow-500"
       else if t = str "regional" then str "bg-orange-500"
       else if t = str "brewpub" then str "bg-green-500"
       else if t = str "large" then str "bg-blue-500"
       else if t = str "planning" then str "bg-purple-500"
       else if t = str "bar" then str "bg-pink-500"
       else if t = str "contract" then str "bg-indigo-500"
       else if t = str "proprietor" then str "bg-teal-500"
       else if t = str "closed" then str "bg-gray-500"
       else str "bg-gray-500")
    ∧ (transformBrewery b).TypeColor = getTypeColor b.BreweryType
    ∧ (transformBrewery { b with BreweryType := str "unknown_code" }).Type_ = str "unknown_code"
    ∧ (transformBrewery { b with BreweryType := str "unknown_code" }).TypeColor
        = str "bg-gray-500" := by
  refine ⟨?_, by simp only [transformBrewery], by rfl, by rfl⟩
  unfold getTypeColor colorsTable
  exact lookup_table_ten t _ _ _ _ _ _ _ _ _ _ _ _ _ _ _ _ _ _ _ _ (str "bg-gray-500")

/-- C7: the `HasLocation` of `transformBrewery b` is true if and only if both
`b.Latitude` and `b.Longitude` are present; latitude 0.0 and longitude 0.0 both present
give true, and a record with either coordinate absent gives false. -/
theorem transformBrewery_hasLocation (b : Brewery) :
    ((transformBrewery b).HasLocation = true ↔ b.Latitude ≠ none ∧ b.Longitude ≠ none)
    ∧ (transformBrewery { b with Latitude := some Float64.zero,
                                 Longitude := some Float64.zero }).HasLocation = true
    ∧ (transformBrewery { b with Latitude := none }).HasLocation = false
    ∧ (transformBrewery { b with Longitude := none }).HasLocation = false := by
  refine ⟨?_, by rfl, by rfl, ?_⟩
  · cases hlat : b.Latitude <;> cases hlon : b.Longitude <;> simp [transformBrewery, hlat, hlon]
  · simp [transformBrewery]

/-! ## The fetcher and the session: claims C8 to C10 -/

/-- C8, as stated, fails: the response with status 500, which is not 2xx, and body
`[{}]` makes `fetchRandomBrewery` succeed with the transform of the zero record, and
`sendBrewery` writes that record to the client as an event. -/
theorem fetchRandomBrewery_status_500_succeeds :
    is2xx 500 = false
    ∧ fetchRandomBrewery sampleCodec (.ok ⟨500, str "[\x7b\x7d]"⟩)
        = .ok (transformBrewery zeroBrewery)
    ∧ (sendBrewery sampleCodec (fun _ => .ok ⟨500, str "[\x7b\x7d]"⟩) openSession).client
        = [.write (str "data: " ++ zeroRecordJSON ++ str "\n\n"), .flush] := by
  refine ⟨by decide, by rfl, by rfl⟩

/-- C8, amended: `fetchRandomBrewery` does not look at the HTTP status. For every
upstream response, 2xx or not, its result is the one for the same body under any other
status: an error when the body does not parse or parses to an empty list, else the
transform of the first record. `sendBrewery` writes nothing to the client when
`fetchRandomBrewery` returns an error (or the record does not serialise), writes one
event and flushes otherwise, and never ends the session. -/
theorem fetchRandomBrewery_status_blind (lib : Codec) (resp : Response) (code : Nat)
    (upstream : Nat → Except GoError Response) (s : Session) :
    fetchRandomBrewery lib (.ok { resp with StatusCode := code })
        = fetchRandomBrewery lib (.ok resp)
    ∧ fetchRandomBrewery lib (.ok resp) =
        (match lib.decode resp.Body with
         | .error err => .error err
         | .ok [] => .error (str "no brewery returned")
         | .ok (b :: _) => .ok (transformBrewery b))
    ∧ (sendBrewery lib upstream s).client =
        (match fetchRandomBrewery lib (upstream s.fetches) with
         | .error _ => s.client
         | .ok brewery =>
           match lib.marshal brewery with
           | .error _ => s.client
           | .ok data => s.client ++ [.write (str "data: " ++ data ++ str "\n\n"), .flush])
    ∧ (sendBrewery lib upstream s).running = s.running := by
  refine ⟨?_, fetch_ok_resp lib resp, ?_, ?_⟩
  · rw [fetch_ok_resp, fetch_ok_resp]
  · cases hf : fetchRandomBrewery lib (upstream s.fetches) with
    | error err => simp only [sendBrewery, hf]
    | ok brewery =>
      cases hm : lib.marshal brewery with
      | error err => simp only [sendBrewery, hf, hm]
      | ok data => simp only [sendBrewery, hf, hm]
  · cases hf : fetchRandomBrewery lib (upstream s.fetches) with
    | error err => simp only [sendBrewery, hf]
    | ok brewery =>
      cases hm : lib.marshal brewery with
      | error err => simp only [sendBrewery, hf, hm]
      | ok data => simp only [sendBrewery, hf, hm]

/-- C9: for every successfully parsed upstream body, a list of raw records,
`fetchRandomBrewery` fails with an error when the list is empty, and otherwise succeeds
with exactly `transformBrewery` of the first element, whatever follows it; a transport
error or a body parse error is returned as a failure with no record. -/
theorem fetchRandomBrewery_parsed (lib : Codec) (resp : Response) (breweries : List Brewery)
    (h : lib.decode resp.Body = .ok breweries) :
    fetchRandomBrewery lib (.ok resp) =
      (match breweries with
       | [] => .error (str "no brewery returned")
       | b :: _ => .ok (transformBrewery b))
    ∧ (∀ err, fetchRandomBrewery lib (.error err) = .error err)
    ∧ (∀ (r : Response) (err : GoError), lib.decode r.Body = .error err →
        fetchRandomBrewery lib (.ok r) = .error err) := by
  refine ⟨?_, fun err => rfl, fun r err hr => ?_⟩
  · simp only [fetchRandomBrewery, h]
    cases breweries with
    | nil => rfl
    | cons b rest => rfl
  · simp only [fetchRandomBrewery, hr]

/-- C9 at a concrete input: the body `[{}]` parses to one zero record, and the fetch
returns its transform. -/
theorem fetchRandomBrewery_parsed_witness :
    sampleCodec.decode (str "[\x7b\x7d]") = .ok [zeroBrewery]
    ∧ fetchRandomBrewery sampleCodec (.ok ⟨200, str "[\x7b\x7d]"⟩)
        = .ok (transformBrewery zeroBrewery) :=
  ⟨by rfl,
   (fetchRandomBrewery_parsed sampleCodec ⟨200, str "[\x7b\x7d]"⟩ [zeroBrewery] (by rfl)).1⟩

/-- C10: for every `N`, a session whose first `N` cycles fail (fetch error or
serialisation error) and whose next cycle succeeds is still running after those `N + 1`
cycles and has written to the client exactly one event, `data: ` followed by the JSON of
the successful record and a blank line, followed by a flush; after each failed cycle
nothing has been written to the client and the session is running. -/
theorem session_failures_then_success (lib : Codec)
    (upstream : Nat → Except GoError Response) (N : Nat)
    (sb : StreamBrewery) (data : GoString)
    (hfail : ∀ i, i < N → cycleFails lib (upstream i) = true)
    (hfetch : fetchRandomBrewery lib (upstream N) = .ok sb)
    (hdata : lib.marshal sb = .ok data) :
    (handleStream lib upstream true (List.replicate N .tick)).running = true
    ∧ (handleStream lib upstream true (List.replicate N .tick)).client
        = [.write (str "data: " ++ data ++ str "\n\n"), .flush]
    ∧ (handleStream lib upstream true (List.replicate N .tick)).fetches = N + 1
    ∧ (∀ k, k < N →
        (handleStream lib upstream true (List.replicate k .tick)).client = []
        ∧ (handleStream lib upstream true (List.replicate k .tick)).running = true) := by
  have hbefore : ∀ k, k < N →
      (handleStream lib upstream true (List.replicate k .tick)).client = []
      ∧ (handleStream lib upstream true (List.replicate k .tick)).running = true
      ∧ (handleStream lib upstream true (List.replicate k .tick)).fetches = k + 1 :=
    fun k hk =>
      handleStream_all_failed lib upstream k (fun i hi => hfail i (Nat.lt_of_le_of_lt hi hk))
  refine ⟨?_, ?_, ?_, fun k hk => ⟨(hbefore k hk).1, (hbefore k hk).2.1⟩⟩
  all_goals
    cases N with
    | zero =>
      have h := sendBrewery_of_ok lib upstream openSession sb data hfetch hdata
      rw [List.replicate_zero, handleStream_no_tick, h]
      rfl
    | succ n =>
      obtain ⟨hc, hr, hn⟩ := hbefore n (Nat.lt_succ_self n)
      have h := sendBrewery_of_ok lib upstream
        (handleStream lib upstream true (List.replicate n .tick)) sb data
        (by rw [hn]; exact hfetch) hdata
      rw [handleStream_ticks_succ, h]
      simp [hc, hr, hn]

/-- C10 at a concrete input: three failing cycles (a timeout, a 503 whose body is not
JSON, an empty list), then a success; the client has received the one event. -/
theorem session_failures_then_success_witness :
    (∀ i, i < 3 → cycleFails sampleCodec (sampleUpstream i) = true)
    ∧ fetchRandomBrewery sampleCodec (sampleUpstream 3) = .ok (transformBrewery zeroBrewery)
    ∧ sampleCodec.marshal (transformBrewery zeroBrewery) = .ok zeroRecordJSON
    ∧ (handleStream sampleCodec sampleUpstream true (List.replicate 3 .tick)).running = true
    ∧ (handleStream sampleCodec sampleUpstream true (List.replicate 3 .tick)).client
        = [.write (str "data: " ++ zeroRecordJSON ++ str "\n\n"), .flush] :=
  have hfail : ∀ i, i < 3 → cycleFails sampleCodec (sampleUpstream i) = true := by decide
  have hfetch : fetchRandomBrewery sampleCodec (sampleUpstream 3)
      = .ok (transformBrewery zeroBrewery) := by rfl
  have hdata : sampleCodec.marshal (transformBrewery zeroBrewery) = .ok zeroRecordJSON := by rfl
  have h := session_failures_then_success sampleCodec sampleUpstream 3
    (transformBrewery zeroBrewery) zeroRecordJSON hfail hfetch hdata
  ⟨hfail, hfetch, hdata, h.1, h.2.1⟩

/-! ## Helper lemmas for the session step by step and for the map link -/

/-- Every `sendBrewery` call is one more fetch. -/
theorem sendBrewery_fetches (lib : Codec) (upstream : Nat → Except GoError Response)
    (s : Session) : (sendBrewery lib upstream s).fetches = s.fetches + 1 := by
  cases hf : fetchRandomBrewery lib (upstream s.fetches) with
  | error err => simp only [sendBrewery, hf]
  | ok brewery =>
    cases hm : lib.marshal brewery with
    | error err => simp only [sendBrewery, hf, hm]
    | ok data => simp only [sendBrewery, hf, hm]

/-- No `sendBrewery` call ends the session. -/
theorem sendBrewery_running (lib : Codec) (upstream : Nat → Except GoError Response)
    (s : Session) : (sendBrewery lib upstream s).running = s.running := by
  cases hf : fetchRandomBrewery lib (upstream s.fetches) with
  | error err => simp only [sendBrewery, hf]
  | ok brewery =>
    cases hm : lib.marshal brewery with
    | error err => simp only [sendBrewery, hf, hm]
    | ok data => simp only [sendBrewery, hf, hm]

/-- A step changes the number of attempts only when a select takes the tick case. -/
theorem stepHandler_attempts (lib : Codec) (upstream : Nat → Except GoError Response)
    (h h1 : Handler) (e : Step) (hstep : stepHandler lib upstream h e = some h1) :
    attempts h1 = attempts h + (if e = .selectTick then 1 else 0) := by
  cases e with
  | cancel =>
    simp only [stepHandler, Option.some.injEq] at hstep
    subst hstep
    simp [attempts]
  | tickFires =>
    simp only [stepHandler, Option.some.injEq] at hstep
    subst hstep
    simp [attempts]
  | fetchReturns =>
    simp only [stepHandler] at hstep
    split at hstep
    · rename_i hf
      simp only [Option.some.injEq] at hstep
      subst hstep
      simp [attempts, hf, sendBrewery_fetches]
    · exact absurd hstep (by simp)
  | selectDone =>
    simp only [stepHandler] at hstep
    split at hstep
    · simp only [Option.some.injEq] at hstep
      subst hstep
      simp [attempts]
    · exact absurd hstep (by simp)
  | selectTick =>
    simp only [stepHandler] at hstep
    split at hstep
    · rename_i hc
      simp only [Bool.and_eq_true, Bool.not_eq_true'] at hc
      simp only [Option.some.injEq] at hstep
      subst hstep
      simp [attempts, hc.1.2]
    · exact absurd hstep (by simp)

theorem runHandler_cons (lib : Codec) (upstream : Nat → Except GoError Response)
    (h h2 : Handler) (e : Step) (rest : List Step)
    (hrun : runHandler lib upstream h (e :: rest) = some h2) :
    ∃ h1, stepHandler lib upstream h e = some h1 ∧ runHandler lib upstream h1 rest = some h2 := by
  simp only [runHandler] at hrun
  cases hs : stepHandler lib upstream h e with
  | none => rw [hs] at hrun; exact absurd hrun (by simp)
  | some h1 => rw [hs] at hrun; exact ⟨h1, rfl, hrun⟩

theorem runHandler_attempts (lib : Codec) (upstream : Nat → Except GoError Response)
    (script : List Step) (h h2 : Handler)
    (hrun : runHandler lib upstream h script = some h2) :
    attempts h2 = attempts h + script.count .selectTick := by
  induction script generalizing h with
  | nil =>
    simp only [runHandler, Option.some.injEq] at hrun
    subst hrun
    simp
  | cons e rest ih =>
    obtain ⟨h1, hs, hr⟩ := runHandler_cons lib upstream h h2 e rest hrun
    rw [ih h1 hr, stepHandler_attempts lib upstream h h1 e hs, List.count_cons]
    by_cases he : e = .selectTick
    · subst he; simp; omega
    · simp [he]

/-- Ticks still waiting in the buffer of `ticker.C`: none or one. -/
theorem stepHandler_ticks (lib : Codec) (upstream : Nat → Except GoError Response)
    (h h1 : Handler) (e : Step) (hstep : stepHandler lib upstream h e = some h1) :
    (if e = .selectTick then 1 else 0) + (if h1.tickPending then 1 else 0)
      ≤ (if e = .tickFires then 1 else 0) + (if h.tickPending then 1 else 0) := by
  cases e with
  | cancel =>
    simp only [stepHandler, Option.some.injEq] at hstep
    subst hstep
    simp
  | tickFires =>
    simp only [stepHandler, Option.some.injEq] at hstep
    subst hstep
    simp
  | fetchReturns =>
    simp only [stepHandler] at hstep
    split at hstep
    · simp only [Option.some.injEq] at hstep
      subst hstep
      simp
    · exact absurd hstep (by simp)
  | selectDone =>
    simp only [stepHandler] at hstep
    split at hstep
    · simp only [Option.some.injEq] at hstep
      subst hstep
      simp
    · exact absurd hstep (by simp)
  | selectTick =>
    simp only [stepHandler] at hstep
    split at hstep
    · rename_i hc
      simp only [Bool.and_eq_true, Bool.not_eq_true'] at hc
      simp only [Option.some.injEq] at hstep
      subst hstep
      simp [hc.2]
    · exact absurd hstep (by simp)

theorem runHandler_ticks (lib : Codec) (upstream : Nat → Except GoError Response)
    (script : List Step) (h h2 : Handler)
    (hrun : runHandler lib upstream h script = some h2) :
    script.count .selectTick + (if h2.tickPending then 1 else 0)
      ≤ script.count .tickFires + (if h.tickPending then 1 else 0) := by
  induction script generalizing h with
  | nil =>
    simp only [runHandler, Option.some.injEq] at hrun
    subst hrun
    simp
  | cons e rest ih =>
    obtain ⟨h1, hs, hr⟩ := runHandler_cons lib upstream h h2 e rest hrun
    have h1le := ih h1 hr
    have h2le := stepHandler_ticks lib upstream h h1 e hs
    rw [List.count_cons, List.count_cons]
    have e1 : (if (e == Step.selectTick) = true then 1 else 0)
        = (if e = Step.selectTick then 1 else 0) := by
      by_cases he : e = .selectTick <;> simp [he]
    have e2 : (if (e == Step.tickFires) = true then 1 else 0)
        = (if e = Step.tickFires then 1 else 0) := by
      by_cases he : e = .tickFires <;> simp [he]
    rw [e1, e2]
    omega

/-- Once the handler has returned, a step changes nothing but what the environment
holds. -/
theorem stepHandler_returned (lib : Codec) (upstream : Nat → Except GoError Response)
    (h h1 : Handler) (e : Step) (hret : h.session.running = false) (hf : h.fetching = false)
    (hstep : stepHandler lib upstream h e = some h1) :
    h1.session = h.session ∧ h1.fetching = false := by
  cases e with
  | cancel =>
    simp only [stepHandler, Option.some.injEq] at hstep
    subst hstep
    exact ⟨rfl, hf⟩
  | tickFires =>
    simp only [stepHandler, Option.some.injEq] at hstep
    subst hstep
    exact ⟨rfl, hf⟩
  | fetchReturns =>
    simp [stepHandler, hf] at hstep
  | selectDone =>
    simp [stepHandler, hret] at hstep
  | selectTick =>
    simp [stepHandler, hret] at hstep

theorem runHandler_returned (lib : Codec) (upstream : Nat → Except GoError Response)
    (script : List Step) (h h2 : Handler) (hret : h.session.running = false)
    (hf : h.fetching = false) (hrun : runHandler lib upstream h script = some h2) :
    h2.session = h.session ∧ h2.fetching = false := by
  induction script generalizing h with
  | nil =>
    simp only [runHandler, Option.some.injEq] at hrun
    subst hrun
    exact ⟨rfl, hf⟩
  | cons e rest ih =>
    obtain ⟨h1, hs, hr⟩ := runHandler_cons lib upstream h h2 e rest hrun
    obtain ⟨hs1, hf1⟩ := stepHandler_returned lib upstream h h1 e hret hf hs
    obtain ⟨hs2, hf2⟩ := ih h1 (by rw [hs1]; exact hret) hf1 hr
    exact ⟨hs2.trans hs1, hf2⟩

/-- A handler that has returned has no fetch in progress. -/
theorem stepHandler_idle (lib : Codec) (upstream : Nat → Except GoError Response)
    (h h1 : Handler) (e : Step) (hinv : h.session.running = false → h.fetching = false)
    (hstep : stepHandler lib upstream h e = some h1) :
    h1.session.running = false → h1.fetching = false := by
  cases e with
  | cancel =>
    simp only [stepHandler, Option.some.injEq] at hstep
    subst hstep
    exact hinv
  | tickFires =>
    simp only [stepHandler, Option.some.injEq] at hstep
    subst hstep
    exact hinv
  | fetchReturns =>
    simp only [stepHandler] at hstep
    split at hstep
    · simp only [Option.some.injEq] at hstep
      subst hstep
      intro _
      rfl
    · exact absurd hstep (by simp)
  | selectDone =>
    simp only [stepHandler] at hstep
    split at hstep
    · rename_i hc
      simp only [Bool.and_eq_true, Bool.not_eq_true'] at hc
      simp only [Option.some.injEq] at hstep
      subst hstep
      intro _
      exact hc.1.2
    · exact absurd hstep (by simp)
  | selectTick =>
    simp only [stepHandler] at hstep
    split at hstep
    · rename_i hc
      simp only [Bool.and_eq_true, Bool.not_eq_true'] at hc
      simp only [Option.some.injEq] at hstep
      subst hstep
      intro hr
      rw [hc.1.1] at hr
      exact absurd hr (by decide)
    · exact absurd hstep (by simp)

theorem runHandler_idle (lib : Codec) (upstream : Nat → Except GoError Response)
    (script : List Step) (h h2 : Handler)
    (hinv : h.session.running = false → h.fetching = false)
    (hrun : runHandler lib upstream h script = some h2) :
    h2.session.running = false → h2.fetching = false := by
  induction script generalizing h with
  | nil =>
    simp only [runHandler, Option.some.injEq] at hrun
    subst hrun
    exact hinv
  | cons e rest ih =>
    obtain ⟨h1, hs, hr⟩ := runHandler_cons lib upstream h h2 e rest hrun
    exact ih h1 (stepHandler_idle lib upstream h h1 e hinv hs) hr

/-- The steps that can happen keep the cycles in turn. -/
theorem runHandler_cyclesInTurn (lib : Codec) (upstream : Nat → Except GoError Response)
    (script : List Step) (h h2 : Handler)
    (hrun : runHandler lib upstream h script = some h2) :
    cyclesInTurn h.fetching script = true := by
  induction script generalizing h with
  | nil => rfl
  | cons e rest ih =>
    obtain ⟨h1, hs, hr⟩ := runHandler_cons lib upstream h h2 e rest hrun
    have ih1 := ih h1 hr
    cases e with
    | cancel =>
      simp only [stepHandler, Option.some.injEq] at hs
      subst hs
      simpa [cyclesInTurn] using ih1
    | tickFires =>
      simp only [stepHandler, Option.some.injEq] at hs
      subst hs
      simpa [cyclesInTurn] using ih1
    | fetchReturns =>
      simp only [stepHandler] at hs
      split at hs
      · rename_i hf
        simp only [Option.some.injEq] at hs
        subst hs
        simpa [cyclesInTurn, hf] using ih1
      · exact absurd hs (by simp)
    | selectDone =>
      simp only [stepHandler] at hs
      split at hs
      · simp only [Option.some.injEq] at hs
        subst hs
        simpa [cyclesInTurn] using ih1
      · exact absurd hs (by simp)
    | selectTick =>
      simp only [stepHandler] at hs
      split at hs
      · rename_i hc
        simp only [Bool.and_eq_true, Bool.not_eq_true'] at hc
        simp only [Option.some.injEq] at hs
        subst hs
        simpa [cyclesInTurn, hc.1.2] using ih1
      · exact absurd hs (by simp)

/-- The step-by-step session and the loop of `handleStream` agree: when the fetch in
progress has ended, the session is the one `selectLoop` gives for the cases the selects
took. -/
theorem runHandler_selectLoop (lib : Codec) (upstream : Nat → Except GoError Response)
    (script : List Step) (h h2 : Handler) (hlive : h.session.running = true)
    (hrun : runHandler lib upstream h script = some h2) :
    settled lib upstream h2
      = selectLoop lib upstream (settled lib upstream h) (selectsOf script) := by
  induction script generalizing h with
  | nil =>
    simp only [runHandler, Option.some.injEq] at hrun
    subst hrun
    rfl
  | cons e rest ih =>
    obtain ⟨h1, hs, hr⟩ := runHandler_cons lib upstream h h2 e rest hrun
    cases e with
    | cancel =>
      simp only [stepHandler, Option.some.injEq] at hs
      have hl1 : h1.session.running = true := by rw [← hs]; exact hlive
      have key : settled lib upstream h1 = settled lib upstream h := by rw [← hs]; rfl
      rw [ih h1 hl1 hr, key]
      rfl
    | tickFires =>
      simp only [stepHandler, Option.some.injEq] at hs
      have hl1 : h1.session.running = true := by rw [← hs]; exact hlive
      have key : settled lib upstream h1 = settled lib upstream h := by rw [← hs]; rfl
      rw [ih h1 hl1 hr, key]
      rfl
    | fetchReturns =>
      simp only [stepHandler] at hs
      split at hs
      · rename_i hf
        simp only [Option.some.injEq] at hs
        have hl1 : h1.session.running = true := by
          rw [← hs]; simp only [sendBrewery_running]; exact hlive
        have key : settled lib upstream h1 = settled lib upstream h := by
          rw [← hs]; simp [settled, hf]
        rw [ih h1 hl1 hr, key]
        rfl
      · exact absurd hs (by simp)
    | selectDone =>
      simp only [stepHandler] at hs
      split at hs
      · rename_i hc
        simp only [Bool.and_eq_true, Bool.not_eq_true'] at hc
        simp only [Option.some.injEq] at hs
        have hr1 : h1.session.running = false := by rw [← hs]
        have hf1 : h1.fetching = false := by rw [← hs]; exact hc.1.2
        obtain ⟨hsess, hfet⟩ := runHandler_returned lib upstream rest h1 h2 hr1 hf1 hr
        have e2 : settled lib upstream h2 = h1.session := by simp [settled, hfet, hsess]
        have e0 : settled lib upstream h = h.session := by simp [settled, hc.1.2]
        rw [e2, e0, ← hs]
        rfl
      · exact absurd hs (by simp)
    | selectTick =>
      simp only [stepHandler] at hs
      split at hs
      · rename_i hc
        simp only [Bool.and_eq_true, Bool.not_eq_true'] at hc
        simp only [Option.some.injEq] at hs
        have hl1 : h1.session.running = true := by rw [← hs]; exact hlive
        have key : settled lib upstream h1
            = sendBrewery lib upstream (settled lib upstream h) := by
          rw [← hs]; simp [settled, hc.1.2]
        rw [ih h1 hl1 hr, key]
        rfl
      · exact absurd hs (by simp)

theorem runHandler_handleStream (lib : Codec) (upstream : Nat → Except GoError Response)
    (script : List Step) (h2 : Handler)
    (hrun : runHandler lib upstream (enterHandler true) script = some h2) :
    settled lib upstream h2 = handleStream lib upstream true (selectsOf script) := by
  have := runHandler_selectLoop lib upstream script (enterHandler true) h2 rfl hrun
  rw [this]
  rfl

/-- A part of a joined list is a piece of the joined string. -/
theorem stringsJoin_mid (sep c : GoString) (l1 l2 : List GoString) :
    ∃ pre post, stringsJoin (l1 ++ c :: l2) sep = pre ++ c ++ post := by
  induction l1 with
  | nil =>
    cases l2 with
    | nil => exact ⟨[], [], by simp [stringsJoin]⟩
    | cons d r => exact ⟨[], sep ++ stringsJoin (d :: r) sep, by simp [stringsJoin]⟩
  | cons a r ih =>
    obtain ⟨pre, post, hj⟩ := ih
    refine ⟨a ++ sep ++ pre, post, ?_⟩
    cases r with
    | nil =>
      simp only [List.nil_append] at hj
      simp only [List.cons_append, List.nil_append, stringsJoin, hj, List.append_assoc]
    | cons a2 r2 =>
      simp only [List.cons_append] at hj
      show stringsJoin (a :: a2 :: (r2 ++ c :: l2)) sep = a ++ sep ++ pre ++ c ++ post
      simp only [stringsJoin, hj, List.append_assoc]

/-- With a non-empty city, `buildMapURL` gives a link, and the city is one of the parts
of its query. -/
theorem buildMapURL_of_city (name address city state country : GoString) (h : city ≠ []) :
    ∃ l1 l2, buildMapURL name address city state country
      = mapSearchBase ++ queryEscape (stringsJoin (l1 ++ city :: l2) (str ", ")) := by
  refine ⟨(if name ≠ [] then [name] else []) ++ (if address ≠ [] then [address] else []),
    (if state ≠ [] ∧ state ≠ str "N/A" then [state] else [])
      ++ (if country ≠ [] ∧ country ≠ str "Unknown" then [country] else []), ?_⟩
  simp only [buildMapURL]
  by_cases h1 : name = [] <;> by_cases h2 : address = []
    <;> by_cases h4 : state ≠ [] ∧ state ≠ str "N/A"
    <;> by_cases h5 : country ≠ [] ∧ country ≠ str "Unknown"
    <;> simp [h, h1, h2, h4, h5]

/-! ## Cancellation, cadence and the map link: claims C11 to C13 -/

/-- C11, as stated, fails: the first fetch is in progress when a tick fires and the
context is cancelled; at that moment nothing has been written and one attempt has been
made. The fetch still runs to its end and its event is written and flushed; the select
that follows has both channels ready and can take the tick, which starts a second cycle
whose event is written too, before a select takes the cancellation case. -/
theorem cancelled_session_still_writes_and_fetches :
    (runHandler sampleCodec steadyUpstream (enterHandler true) [.tickFires, .cancel]).map
        (fun h => (h.cancelled, h.session.client, attempts h)) = some (true, [], 1)
    ∧ (runHandler sampleCodec steadyUpstream (enterHandler true)
        [.tickFires, .cancel, .fetchReturns]).map (fun h => h.session.client)
        = some [.write zeroRecordEvent, .flush]
    ∧ (runHandler sampleCodec steadyUpstream (enterHandler true)
        [.tickFires, .cancel, .fetchReturns, .selectTick, .fetchReturns, .selectDone]).map
        (fun h => (h.session.client, attempts h, h.session.running))
        = some ([.write zeroRecordEvent, .flush, .write zeroRecordEvent, .flush], 2, false) := by
  refine ⟨by rfl, by rfl, by rfl⟩

/-- C11, amended: once a select of the session loop has taken the cancellation case the
handler has returned, and whatever happens next it writes nothing further and makes no
further attempt. Until then cancellation does not touch the cycle in progress: the fetch
in progress ends as `sendBrewery` always ends, writing its event when it succeeds; at a
select with the context cancelled, the cancellation case is the only one that can be
taken when no tick is pending, and either case can be taken when a tick is pending. -/
theorem session_after_select_done (lib : Codec) (upstream : Nat → Except GoError Response)
    (script rest : List Step) (h h2 : Handler)
    (hrun : runHandler lib upstream (enterHandler true) script = some h)
    (hret : h.session.running = false)
    (hrest : runHandler lib upstream h rest = some h2) :
    h2.session = h.session ∧ attempts h2 = attempts h
    ∧ (∀ m : Handler, m.fetching = true →
        stepHandler lib upstream m .fetchReturns
          = some { m with session := sendBrewery lib upstream m.session, fetching := false })
    ∧ (∀ m : Handler, m.session.running = true → m.fetching = false → m.cancelled = true →
        m.tickPending = false →
        stepHandler lib upstream m .selectTick = none
        ∧ stepHandler lib upstream m .selectDone
            = some { m with session := { m.session with running := false } })
    ∧ (∀ m : Handler, m.session.running = true → m.fetching = false → m.cancelled = true →
        m.tickPending = true →
        stepHandler lib upstream m .selectTick
            = some { m with tickPending := false, fetching := true }
        ∧ stepHandler lib upstream m .selectDone
            = some { m with session := { m.session with running := false } }) := by
  have hidle : h.fetching = false :=
    runHandler_idle lib upstream script (enterHandler true) h
      (fun hr => absurd hr (by decide)) hrun hret
  obtain ⟨hsess, hfet⟩ := runHandler_returned lib upstream rest h h2 hret hidle hrest
  refine ⟨hsess, ?_, ?_, ?_, ?_⟩
  · simp only [attempts, hsess, hfet, hidle]
  · intro m hm
    simp only [stepHandler, hm, if_true]
  · intro m h1 h2 h3 h4
    simp [stepHandler, h1, h2, h3, h4]
  · intro m h1 h2 h3 h4
    simp [stepHandler, h1, h2, h3, h4]

/-- C11 amended, at a concrete input: the first event is sent, the client disconnects,
the select takes the cancellation case; a later tick and a repeated cancellation change
nothing. -/
theorem session_after_select_done_witness :
    runHandler sampleCodec steadyUpstream (enterHandler true)
        [.fetchReturns, .cancel, .selectDone] = some (returnedAfter 1 false)
    ∧ (returnedAfter 1 false).session.running = false
    ∧ runHandler sampleCodec steadyUpstream (returnedAfter 1 false) [.tickFires, .cancel]
        = some (returnedAfter 1 true)
    ∧ (returnedAfter 1 true).session = (returnedAfter 1 false).session
    ∧ attempts (returnedAfter 1 true) = attempts (returnedAfter 1 false) :=
  have hrun : runHandler sampleCodec steadyUpstream (enterHandler true)
      [.fetchReturns, .cancel, .selectDone] = some (returnedAfter 1 false) := by rfl
  have hrest : runHandler sampleCodec steadyUpstream (returnedAfter 1 false)
      [.tickFires, .cancel] = some (returnedAfter 1 true) := by rfl
  have h := session_after_select_done sampleCodec steadyUpstream
    [.fetchReturns, .cancel, .selectDone] [.tickFires, .cancel]
    (returnedAfter 1 false) (returnedAfter 1 true) hrun rfl hrest
  ⟨hrun, rfl, hrest, h.1, h.2.1⟩

/-- A run over two sequences of steps is the run over the second from where the first
ends. -/
theorem runHandler_append (lib : Codec) (upstream : Nat → Except GoError Response)
    (pre post : List Step) (h : Handler) :
    runHandler lib upstream h (pre ++ post)
      = (runHandler lib upstream h pre).bind (fun m => runHandler lib upstream m post) := by
  induction pre generalizing h with
  | nil => rfl
  | cons e rest ih =>
    simp only [List.cons_append, runHandler]
    cases stepHandler lib upstream h e with
    | none => rfl
    | some h1 => exact ih h1

/-- The ticks taken before cancellation are among the ticks taken. -/
theorem ticksBeforeCancel_le (script : List Step) :
    ticksBeforeCancel script ≤ script.count .selectTick :=
  (List.takeWhile_sublist _).count_le Step.selectTick

/-- Before the first cancellation, the ticks taken are the ticks taken before it. -/
theorem ticksBeforeCancel_split (pre post : List Step) (hpre : Step.cancel ∉ pre) :
    ticksBeforeCancel (pre ++ .cancel :: post) = pre.count .selectTick := by
  unfold ticksBeforeCancel
  rw [List.takeWhile_append_of_pos, List.takeWhile_cons]
  · simp
  · intro a ha
    have : a ≠ Step.cancel := fun hc => hpre (hc ▸ ha)
    simpa using this

/-- C12, as stated, fails: the client disconnects while the first fetch is in progress
and before any tick has fired, so that no tick is observed before cancellation; the tick
that fires before the slow fetch returns is taken by the select that follows, and the
session makes two fetch attempts, not one. -/
theorem disconnect_before_first_tick_two_attempts :
    runHandler sampleCodec steadyUpstream (enterHandler true)
        [.cancel, .tickFires, .fetchReturns, .selectTick, .fetchReturns, .selectDone]
      = some (returnedAfter 2 false)
    ∧ firedBeforeCancel
        [.cancel, .tickFires, .fetchReturns, .selectTick, .fetchReturns, .selectDone] = 0
    ∧ ticksBeforeCancel
        [.cancel, .tickFires, .fetchReturns, .selectTick, .fetchReturns, .selectDone] = 0
    ∧ attempts (returnedAfter 2 false) = 2
    ∧ attempts (returnedAfter 2 false)
      ≠ ticksBeforeCancel
          [.cancel, .tickFires, .fetchReturns, .selectTick, .fetchReturns, .selectDone] + 1 := by
  refine ⟨by rfl, by decide, by decide, by decide, by decide⟩

/-- C12, amended: on a transport that supports flushing, the first fetch attempt is in
progress on entry, before any select; each later attempt is started by a select taking
one tick that the ticker fired, and only when no fetch is in progress, so a session whose
selects took `k` ticks in all has made exactly `k + 1` attempts, one after another. The
ticks taken before cancellation give a lower bound; they give the exact number, `k + 1`
attempts for `k` ticks taken before cancellation, when no tick is pending at the moment
of cancellation and none fires after it, and a session in which no tick fired at all has
made exactly one attempt. The session so obtained is the one of `handleStream` for the
cases its selects took. On a transport that does not support flushing the session ends
with the error response of `http.Error`, makes no fetch attempt and sends no event. -/
theorem session_attempts_by_ticks (lib : Codec) (upstream : Nat → Except GoError Response)
    (script : List Step) (h : Handler)
    (hrun : runHandler lib upstream (enterHandler true) script = some h) :
    (enterHandler true).fetching = true ∧ attempts (enterHandler true) = 1
    ∧ attempts h = script.count .selectTick + 1
    ∧ script.count .selectTick ≤ script.count .tickFires
    ∧ cyclesInTurn true script = true
    ∧ settled lib upstream h = handleStream lib upstream true (selectsOf script)
    ∧ ticksBeforeCancel script + 1 ≤ attempts h
    ∧ (∀ pre post m, script = pre ++ .cancel :: post → Step.cancel ∉ pre →
        runHandler lib upstream (enterHandler true) pre = some m →
        m.tickPending = false → post.count .tickFires = 0 →
        attempts h = ticksBeforeCancel script + 1)
    ∧ (script.count .tickFires = 0 → attempts h = 1)
    ∧ (∀ events,
        (handleStream lib upstream false events).client
          = [.httpError (str "SSE not supported") 500]
        ∧ (handleStream lib upstream false events).header = unsupportedHeader
        ∧ (handleStream lib upstream false events).fetches = 0
        ∧ (handleStream lib upstream false events).running = false)
    ∧ (∀ steps m, runHandler lib upstream (enterHandler false) steps = some m →
        m.session = handleStream lib upstream false [] ∧ attempts m = 0) := by
  have hatt := runHandler_attempts lib upstream script (enterHandler true) h hrun
  have htick := runHandler_ticks lib upstream script (enterHandler true) h hrun
  have h1 : attempts (enterHandler true) = 1 := rfl
  have h0 : (enterHandler true).tickPending = false := rfl
  have hle : script.count .selectTick ≤ script.count .tickFires := by
    rw [h0] at htick
    simp only [Bool.false_eq_true, if_false, Nat.add_zero] at htick
    omega
  have hlow := ticksBeforeCancel_le script
  refine ⟨rfl, h1, by omega, hle,
    runHandler_cyclesInTurn lib upstream script (enterHandler true) h hrun,
    runHandler_handleStream lib upstream script h hrun, by omega, ?_, fun hz => by omega,
    fun events => ⟨by rfl, by rfl, by rfl, by rfl⟩, ?_⟩
  · intro pre post m hsplit hpre hm hpend hfire
    subst hsplit
    rw [runHandler_append, hm] at hrun
    obtain ⟨m1, hs, hr⟩ := runHandler_cons lib upstream m h .cancel post hrun
    simp only [stepHandler, Option.some.injEq] at hs
    have hp1 : m1.tickPending = false := by rw [← hs]; exact hpend
    have hpost := runHandler_ticks lib upstream post m1 h hr
    rw [hp1, hfire] at hpost
    simp only [Bool.false_eq_true, if_false, Nat.add_zero] at hpost
    have hcount : (pre ++ Step.cancel :: post).count .selectTick
        = pre.count .selectTick + post.count .selectTick := by
      rw [List.count_append, List.count_cons]
      simp
    rw [ticksBeforeCancel_split pre post hpre]
    omega
  · intro steps m hm
    obtain ⟨hsess, hfet⟩ :=
      runHandler_returned lib upstream steps (enterHandler false) m rfl rfl hm
    refine ⟨?_, ?_⟩
    · rw [hsess]; rfl
    · simp only [attempts, hsess, hfet]; rfl

/-- C12 amended, at a concrete input: the first event, one tick and its event, then the
client disconnects with no tick pending and the select takes the cancellation case: two
attempts for the one tick taken before cancellation. -/
theorem session_attempts_by_ticks_witness :
    runHandler sampleCodec steadyUpstream (enterHandler true)
        [.fetchReturns, .tickFires, .selectTick, .fetchReturns, .cancel, .selectDone]
      = some (returnedAfter 2 false)
    ∧ runHandler sampleCodec steadyUpstream (enterHandler true)
        [.fetchReturns, .tickFires, .selectTick, .fetchReturns] = some (waitingAfter 2)
    ∧ ticksBeforeCancel
        [.fetchReturns, .tickFires, .selectTick, .fetchReturns, .cancel, .selectDone] = 1
    ∧ attempts (returnedAfter 2 false)
      = ticksBeforeCancel
          [.fetchReturns, .tickFires, .selectTick, .fetchReturns, .cancel, .selectDone] + 1 :=
  have hrun : runHandler sampleCodec steadyUpstream (enterHandler true)
      [.fetchReturns, .tickFires, .selectTick, .fetchReturns, .cancel, .selectDone]
      = some (returnedAfter 2 false) := by rfl
  have hpre : runHandler sampleCodec steadyUpstream (enterHandler true)
      [.fetchReturns, .tickFires, .selectTick, .fetchReturns] = some (waitingAfter 2) := by rfl
  ⟨hrun, hpre, by decide,
   (session_attempts_by_ticks sampleCodec steadyUpstream
      [.fetchReturns, .tickFires, .selectTick, .fetchReturns, .cancel, .selectDone]
      (returnedAfter 2 false) hrun).2.2.2.2.2.2.2.1
      [.fetchReturns, .tickFires, .selectTick, .fetchReturns] [.selectDone] (waitingAfter 2)
      rfl (by decide) hpre rfl rfl⟩

/-- C13: for every raw record `b`, the all-empty one included, the `MapURL` of
`transformBrewery b` is never the empty string: it starts with
`https://www.google.com/maps/search/?api=1&query=` and its query contains the city, the
raw one or else the sentinel `Unknown`, which is not filtered; for the all-empty record
the result is the URL whose query is `Unknown`. -/
theorem transformBrewery_mapURL_never_empty (b : Brewery) :
    (transformBrewery b).MapURL ≠ []
    ∧ (∃ pre post, (transformBrewery b).MapURL
        = mapSearchBase ++ queryEscape (pre ++ (transformBrewery b).City ++ post))
    ∧ (transformBrewery b).City = (if b.City = [] then str "Unknown" else b.City)
    ∧ (transformBrewery zeroBrewery).MapURL = mapSearchBase ++ str "Unknown"
    ∧ (transformBrewery zeroBrewery).MapURL
        = str "https://www.google.com/maps/search/?api=1&query=Unknown" := by
  have hcity : (transformBrewery b).City ≠ [] := by
    have hun : str "Unknown" ≠ [] := by decide
    simp only [transformBrewery]
    split_ifs <;> assumption
  have hmap : (transformBrewery b).MapURL
      = buildMapURL b.Name b.Address1 (transformBrewery b).City (transformBrewery b).State
          (transformBrewery b).Country := by
    simp only [transformBrewery]
  obtain ⟨l1, l2, hb⟩ := buildMapURL_of_city b.Name b.Address1 (transformBrewery b).City
    (transformBrewery b).State (transformBrewery b).Country hcity
  obtain ⟨pre, post, hj⟩ := stringsJoin_mid (str ", ") (transformBrewery b).City l1 l2
  have hbase : mapSearchBase ≠ [] := by decide
  refine ⟨?_, ⟨pre, post, ?_⟩, by simp only [transformBrewery], by decide, by decide⟩
  · rw [hmap, hb]
    intro hnil
    exact hbase (List.append_eq_nil.mp hnil).1
  · rw [hmap, hb, hj]

end BreweryStream
